import Mathlib

/-!
Verification of the CSR sparse matrix `SprsMat` from `src/sparse_mat.rs` of
the `linalg_lib` repository.

The embedding is a direct shallow translation of the Rust code:

* `Vec<usize>` / `Vec<f64>` become `List Nat` / `List Int` (the stored values
  are only moved, stored and returned — the code performs no floating-point
  arithmetic or comparison on them, so any value type is faithful; we pick
  `Int` and render the literal `0.0` as `0`).
* `PyResult` errors (`PyIndexError`) and Rust panics (`todo!()`, out-of-bounds
  `Vec` indexing / slicing / insertion) are both made explicit in an `RsError`
  type, so that "the call panics" is an observable outcome of the model.
* `__setitem__` returns the post-state together with an optional error, so
  that mutation (including partial mutation before a panic) is observable.
* Signed Python indices (`[i32; 2]`) are modelled as `Int`; Rust's
  `usize::try_from` fails exactly on negative inputs, which is what the model
  does.  Error-message strings are abbreviated (the Rust out-of-bounds
  message interpolates the index and shape; the text plays no role in any
  property).
-/

/-- Outcome classification for a Rust/pyo3 call: a typed Python `IndexError`,
or a Rust panic (`todo!()` or an out-of-bounds `Vec` operation). -/
inductive RsError where
  | indexError : String → RsError
  | panic : String → RsError
deriving DecidableEq

/-- The CSR matrix struct of `sparse_mat.rs`: three parallel growable arrays
plus a shape pair `(rows, cols)`. -/
structure SprsMat where
  row_ptr : List Nat
  col_indx : List Nat
  vals : List Int
  shape : Nat × Nat
deriving DecidableEq

/-- The raw `#[new]` constructor: stores the four caller-supplied components
verbatim, with no validation. -/
def SprsMat.new (row_ptr col_indx : List Nat) (vals : List Int)
    (shape : Nat × Nat) : SprsMat :=
  ⟨row_ptr, col_indx, vals, shape⟩

/-- `SprsMat::zeros(m, n)`: `row_ptr` is `m+1` zeros, `col_indx` and `vals`
are empty (from `Default`), shape is `(m, n)`. -/
def SprsMat.zeros (m n : Nat) : SprsMat :=
  ⟨List.replicate (m + 1) 0, [], [], (m, n)⟩

/-- The `vals()` accessor method: returns a clone of the stored value
sequence. -/
def SprsMat.valsFn (self : SprsMat) : List Int :=
  self.vals

/-- Rust `v[i]` on a `Vec`: the element, or a panic when out of bounds. -/
def rustIndex {α : Type} (l : List α) (i : Nat) : Except RsError α :=
  match l.get? i with
  | some a => .ok a
  | none => .error (.panic "index out of bounds")

/-- Rust `v[a..b]` on a `Vec`: the sub-slice, or a panic when `a > b` or
`b > v.len()`. -/
def rustSlice {α : Type} (l : List α) (a b : Nat) : Except RsError (List α) :=
  if a ≤ b ∧ b ≤ l.length then .ok ((l.drop a).take (b - a))
  else .error (.panic "slice index out of range")

/-- Rust `Vec::insert(i, x)`: insertion shifting later elements right, or a
panic when `i > v.len()`. -/
def rustInsert {α : Type} (l : List α) (i : Nat) (a : α) :
    Except RsError (List α) :=
  if i ≤ l.length then .ok (l.insertIdx i a)
  else .error (.panic "insertion index out of bounds")

/-- Rust `v[i] = x` on a `Vec`: in-place update, or a panic when out of
bounds. -/
def rustSetElem {α : Type} (l : List α) (i : Nat) (a : α) :
    Except RsError (List α) :=
  if i < l.length then .ok (l.set i a)
  else .error (.panic "index out of bounds")

/-- `Iterator::position(p)`: index of the first element satisfying `p`. -/
def position {α : Type} (p : α → Bool) : List α → Option Nat
  | [] => none
  | a :: l => if p a then some 0 else (position p l).map (· + 1)

/-- `Iterator::rposition(p)`: index of the last element satisfying `p`. -/
def rposition {α : Type} (p : α → Bool) : List α → Option Nat
  | [] => none
  | a :: l =>
    match rposition p l with
    | some i => some (i + 1)
    | none => if p a then some 0 else none

/-- `__getitem__(self, idx)`: sign validation, bounds validation, then a scan
of the row's sub-slice of `col_indx` for the column, returning the co-indexed
value from `vals`, and `0.0` when the column is absent.  The receiver is
`&self`: the call never modifies the matrix, which the model reflects by
returning only the result. -/
def SprsMat.getitem (self : SprsMat) (i j : Int) : Except RsError Int :=
  if i < 0 then .error (.indexError "index m cannot be negative")
  else if j < 0 then .error (.indexError "index n cannot be negative")
  else if self.shape.1 ≤ i.toNat ∨ self.shape.2 ≤ j.toNat then
    .error (.indexError "index out of bounds for matrix")
  else
    match rustIndex self.row_ptr i.toNat with
    | .error e => .error e
    | .ok lo =>
      match rustIndex self.row_ptr (i.toNat + 1) with
      | .error e => .error e
      | .ok hi =>
        match rustSlice self.col_indx lo hi with
        | .error e => .error e
        | .ok slice =>
          match position (fun x => x == j.toNat) slice with
          | some k => rustIndex self.vals (lo + k)
          | none => .ok 0

/-- `__setitem__(self, idx, value)`: sign and bounds validation, then
`rposition` over the row's sub-slice for the last stored column `<= col`.
On an exact match the value is overwritten in place.  Otherwise the code
inserts `value` into `vals` at the found position, inserts the COLUMN INDEX
into `row_ptr` at that same position, and increments EVERY entry of
`col_indx`; when no stored column is `<= col` it hits `todo!()`.  The model
returns the post-state (also the partially-mutated state when a panic occurs
after the first insertion) together with the optional error. -/
def SprsMat.setitem (self : SprsMat) (i j : Int) (value : Int) :
    SprsMat × Option RsError :=
  if i < 0 then (self, some (.indexError "index m cannot be negative"))
  else if j < 0 then (self, some (.indexError "index n cannot be negative"))
  else if self.shape.1 ≤ i.toNat ∨ self.shape.2 ≤ j.toNat then
    (self, some (.indexError "index out of bounds for matrix"))
  else
    match rustIndex self.row_ptr i.toNat with
    | .error e => (self, some e)
    | .ok lo =>
      match rustIndex self.row_ptr (i.toNat + 1) with
      | .error e => (self, some e)
      | .ok hi =>
        match rustSlice self.col_indx lo hi with
        | .error e => (self, some e)
        | .ok slice =>
          match rposition (fun x => decide (x ≤ j.toNat)) slice with
          | some rel_indx =>
            match rustIndex self.col_indx (lo + rel_indx) with
            | .error e => (self, some e)
            | .ok c =>
              if c = j.toNat then
                match rustSetElem self.vals (lo + rel_indx) value with
                | .error e => (self, some e)
                | .ok newVals => ({ self with vals := newVals }, none)
              else
                match rustInsert self.vals (lo + rel_indx) value with
                | .error e => (self, some e)
                | .ok newVals =>
                  match rustInsert self.row_ptr (lo + rel_indx) j.toNat with
                  | .error e => ({ self with vals := newVals }, some e)
                  | .ok newRowPtr =>
                    ({ self with
                        vals := newVals,
                        row_ptr := newRowPtr,
                        col_indx := self.col_indx.map (· + 1) }, none)
          | none => (self, some (.panic "not yet implemented"))

/-- The contiguous slice of `col_indx` belonging to row `r`:
`col_indx[row_ptr[r] .. row_ptr[r+1]]`. -/
def rowSlice (A : SprsMat) (r : Nat) : List Nat :=
  (A.col_indx.drop (A.row_ptr.getD r 0)).take
    (A.row_ptr.getD (r + 1) 0 - A.row_ptr.getD r 0)

/-- The CSR invariant of the specification: `row_ptr` has `rows + 1` entries,
starts at `0`, is non-decreasing and ends at `nnz`; `col_indx` and `vals` are
parallel; every row's slice of `col_indx` is strictly increasing with every
entry `< cols`. -/
def CsrInv (A : SprsMat) : Prop :=
  A.row_ptr.length = A.shape.1 + 1 ∧
  A.row_ptr.getD 0 0 = 0 ∧
  A.row_ptr.Pairwise (· ≤ ·) ∧
  A.row_ptr.getD A.shape.1 0 = A.col_indx.length ∧
  A.vals.length = A.col_indx.length ∧
  ∀ r, r < A.shape.1 →
    (rowSlice A r).Pairwise (· < ·) ∧ ∀ c ∈ rowSlice A r, c < A.shape.2

/-- The lookup described by the specification of `get`: the value co-indexed
with `n` in row `m`'s slice when `n` occurs there (under the invariant the
slice is strictly increasing, so the first occurrence is the only one), and
`0` otherwise. -/
def getSpec (A : SprsMat) (m n : Nat) : Int :=
  match position (fun x => x == n) (rowSlice A m) with
  | some k => A.vals.getD (A.row_ptr.getD m 0 + k) 0
  | none => 0

/-- The state after applying a sequence of `set` calls, each given as a
triple `(row, col, value)`; every call is applied to the state left by its
predecessor (a failed call leaves the state it produced, which for
validation failures and `todo!()` is the unchanged input state). -/
def runSets (A : SprsMat) : List (Int × Int × Int) → SprsMat
  | [] => A
  | c :: cs => runSets (A.setitem c.1 c.2.1 c.2.2).1 cs

/-- Every `set` call of the sequence succeeds (returns without `IndexError`
and without panic), each judged on the state left by its predecessor. -/
def allSucceed (A : SprsMat) : List (Int × Int × Int) → Prop
  | [] => True
  | c :: cs => (A.setitem c.1 c.2.1 c.2.2).2 = none ∧
      allSucceed (A.setitem c.1 c.2.1 c.2.2).1 cs

instance (A : SprsMat) : Decidable (CsrInv A) := by
  unfold CsrInv
  infer_instance

instance {ε α : Type} [DecidableEq ε] [DecidableEq α] :
    DecidableEq (Except ε α) := by
  intro a b
  cases a <;> cases b
  case error.error e f =>
    exact if h : e = f then .isTrue (by rw [h])
      else .isFalse (fun hh => h (by injection hh))
  case error.ok e b => exact .isFalse (fun hh => Except.noConfusion hh)
  case ok.error a f => exact .isFalse (fun hh => Except.noConfusion hh)
  case ok.ok a b =>
    exact if h : a = b then .isTrue (by rw [h])
      else .isFalse (fun hh => h (by injection hh))

/-- `Vec` indexing succeeds below the length, returning the element. -/
theorem rustIndex_eq_ok {α : Type} (l : List α) (i : Nat) (d : α)
    (h : i < l.length) : rustIndex l i = .ok (l.getD i d) := by
  unfold rustIndex
  rw [List.get?_eq_get h, List.getD_eq_getElem l d h]
  simp [List.get_eq_getElem]

/-- Slicing succeeds when the bounds are ordered and within the vector. -/
theorem rustSlice_eq_ok {α : Type} (l : List α) (a b : Nat) (hab : a ≤ b)
    (hb : b ≤ l.length) : rustSlice l a b = .ok ((l.drop a).take (b - a)) := by
  unfold rustSlice
  rw [if_pos ⟨hab, hb⟩]

/-- `position` only returns indices inside the list. -/
theorem position_lt_length {α : Type} (p : α → Bool) (l : List α) :
    ∀ k, position p l = some k → k < l.length := by
  induction l with
  | nil => intro k h; simp [position] at h
  | cons a l ih =>
    intro k h
    by_cases hp : p a
    · simp [position, hp] at h
      simp [← h]
    · simp [position, hp] at h
      obtain ⟨k', hk', rfl⟩ := h
      have := ih k' hk'
      simp
      omega

/-- In a `(· ≤ ·)`-pairwise list, entries are monotone in the index. -/
theorem pairwise_le_getD (l : List Nat) (h : l.Pairwise (· ≤ ·)) (i j : Nat)
    (hij : i ≤ j) (hj : j < l.length) : l.getD i 0 ≤ l.getD j 0 := by
  have hi : i < l.length := by omega
  rw [List.getD_eq_getElem l 0 hi, List.getD_eq_getElem l 0 hj]
  rcases Nat.eq_or_lt_of_le hij with rfl | hlt
  · exact le_refl _
  · have := List.pairwise_iff_get.mp h ⟨i, hi⟩ ⟨j, hj⟩ hlt
    simpa [List.get_eq_getElem] using this

/-- `getD` with default `0` on a replicated-`0` list is `0` at every index,
in or out of range. -/
theorem getD_replicate_self (k t : Nat) :
    (List.replicate k (0 : Nat)).getD t 0 = 0 := by
  by_cases h : t < k
  · rw [List.getD_eq_getElem _ _ (by simp [List.length_replicate]; omega)]
    simp [List.getElem_replicate]
  · exact List.getD_eq_default _ _ (by simp [List.length_replicate]; omega)

/-- Reading `row_ptr` of a `zeros` matrix at any index below `m + 1`
succeeds and yields `0`. -/
theorem zeros_row_ptr_index (m n t : Nat) (ht : t < m + 1) :
    rustIndex (SprsMat.zeros m n).row_ptr t = .ok 0 := by
  have hlen : t < (SprsMat.zeros m n).row_ptr.length := by
    simp [SprsMat.zeros, List.length_replicate]
    omega
  rw [rustIndex_eq_ok _ _ 0 hlen]
  simp [SprsMat.zeros, getD_replicate_self]

/-- A `zeros` matrix satisfies the CSR invariant. -/
theorem csrInv_zeros (m n : Nat) : CsrInv (SprsMat.zeros m n) := by
  refine ⟨?_, ?_, ?_, ?_, ?_, ?_⟩
  · simp [SprsMat.zeros, List.length_replicate]
  · exact getD_replicate_self (m + 1) 0
  · exact List.pairwise_replicate.mpr (Or.inr (le_refl 0))
  · simp only [SprsMat.zeros]
    exact getD_replicate_self (m + 1) m
  · rfl
  · intro r hr
    have hempty : rowSlice (SprsMat.zeros m n) r = [] := by
      simp [rowSlice, SprsMat.zeros]
    rw [hempty]
    exact ⟨List.Pairwise.nil, by simp⟩

/-- No `set` call on a `zeros` matrix ever succeeds: invalid indices fail
the validation with an `IndexError`, and every in-bounds call scans an
empty row slice, gets `None` from `rposition`, and panics at `todo!()`. -/
theorem zeros_set_never_succeeds (m n : Nat) (i j v : Int) :
    ((SprsMat.zeros m n).setitem i j v).2 ≠ none := by
  unfold SprsMat.setitem
  by_cases h1 : i < 0
  · rw [if_pos h1]
    simp
  by_cases h2 : j < 0
  · rw [if_neg h1, if_pos h2]
    simp
  by_cases h3 : (SprsMat.zeros m n).shape.1 ≤ i.toNat ∨
      (SprsMat.zeros m n).shape.2 ≤ j.toNat
  · rw [if_neg h1, if_neg h2, if_pos h3]
    simp
  · rw [if_neg h1, if_neg h2, if_neg h3]
    have hmlt : i.toNat < m := by
      simp only [SprsMat.zeros] at h3
      omega
    rw [zeros_row_ptr_index m n i.toNat (by omega),
      zeros_row_ptr_index m n (i.toNat + 1) (by omega)]
    have hsl : rustSlice (SprsMat.zeros m n).col_indx 0 0 = .ok [] := by
      simp [rustSlice, SprsMat.zeros]
    simp only [hsl, rposition]
    simp

/-- C1: the round-trip property ("set(row, col, v) followed by get(row, col)
returns v" on an invariant-satisfying matrix at in-bounds indices) fails on
the code.  `zeros 1 1` satisfies the CSR invariant and `(0, 0)` is in
bounds, yet `set(0, 0, 7)` hits the `todo!()` branch (the row is empty, so
`rposition` finds no stored column `<= 0`) and panics leaving the matrix
unchanged, after which `get(0, 0)` returns `0`, not `7`. -/
theorem C1_roundtrip_fails_in_code :
    CsrInv (SprsMat.zeros 1 1) ∧
    (SprsMat.zeros 1 1).setitem 0 0 7 =
      (SprsMat.zeros 1 1, some (RsError.panic "not yet implemented")) ∧
    ((SprsMat.zeros 1 1).setitem 0 0 7).1.getitem 0 0 = .ok 0 := by
  decide

/-- C2: the insertion step does not behave as specified.  On the 3×3
invariant-satisfying matrix with `row_ptr = [0,1,1,2]`, `col_indx = [0,1]`,
`vals = [1,9]` (one entry in row 0 at column 0, one entry in row 2 at
column 1 with value 9), `set(0, 2, 5)` takes the insertion branch and — as
written in the source — inserts the value at the found position instead of
after it, inserts the COLUMN INDEX `2` into `row_ptr` (yielding
`[2,0,1,1,2]`) instead of inserting it into `col_indx` and bumping later
row pointers, and increments every `col_indx` entry (yielding `[1,2]`).
Row 2's logical value at column 1 changes from `9` to `0`, contradicting
the claim that other rows are left unchanged. -/
theorem C2_insertion_shift_corrupts_matrix :
    CsrInv (SprsMat.new [0, 1, 1, 2] [0, 1] [1, 9] (3, 3)) ∧
    ((SprsMat.new [0, 1, 1, 2] [0, 1] [1, 9] (3, 3)).setitem 0 2 5).2 = none ∧
    (SprsMat.new [0, 1, 1, 2] [0, 1] [1, 9] (3, 3)).getitem 2 1 = .ok 9 ∧
    ((SprsMat.new [0, 1, 1, 2] [0, 1] [1, 9] (3, 3)).setitem 0 2 5).1.getitem 2 1
      = .ok 0 ∧
    ((SprsMat.new [0, 1, 1, 2] [0, 1] [1, 9] (3, 3)).setitem 0 2 5).1.row_ptr
      = [2, 0, 1, 1, 2] ∧
    ((SprsMat.new [0, 1, 1, 2] [0, 1] [1, 9] (3, 3)).setitem 0 2 5).1.col_indx
      = [1, 2] ∧
    ((SprsMat.new [0, 1, 1, 2] [0, 1] [1, 9] (3, 3)).setitem 0 2 5).1.vals
      = [5, 1, 9] := by
  decide

/-- C3: the "insert at the front of the row" case (no stored column index
`<= col`) is not handled: on the invariant-satisfying 1×3 matrix holding a
single entry at column 2, `set(0, 0, 5)` reaches the `todo!()` branch and
panics instead of inserting at the row's starting offset. -/
theorem C3_front_insertion_hits_unimplemented :
    CsrInv (SprsMat.new [0, 1] [2] [9] (1, 3)) ∧
    (SprsMat.new [0, 1] [2] [9] (1, 3)).setitem 0 0 5 =
      (SprsMat.new [0, 1] [2] [9] (1, 3),
        some (RsError.panic "not yet implemented")) := by
  decide

/-- C4: after every sequence of successful `set` calls applied to a matrix
constructed by `zeros`, the CSR invariant holds.  The code satisfies this as
stated — but only because no `set` call on a `zeros` matrix ever succeeds
(every row is empty, so each in-bounds `set` panics at `todo!()` before any
mutation, and invalid-index calls fail the validation; see
`zeros_set_never_succeeds`): the only sequence of successful calls is the
empty one, after which the state is still the `zeros` matrix, which
satisfies the invariant.  The first conjunct records this degeneracy
explicitly. -/
theorem C4_invariant_after_successful_sets (m n : Nat)
    (cs : List (Int × Int × Int)) (h : allSucceed (SprsMat.zeros m n) cs) :
    runSets (SprsMat.zeros m n) cs = SprsMat.zeros m n ∧
    CsrInv (runSets (SprsMat.zeros m n) cs) := by
  cases cs with
  | nil => exact ⟨rfl, csrInv_zeros m n⟩
  | cons c cs =>
    exact absurd h.1 (zeros_set_never_succeeds m n c.1 c.2.1 c.2.2)

/-- C4 witness: the empty sequence of calls on `zeros 2 2`. -/
theorem C4_invariant_after_successful_sets_witness :
    allSucceed (SprsMat.zeros 2 2) [] ∧
    (runSets (SprsMat.zeros 2 2) [] = SprsMat.zeros 2 2 ∧
      CsrInv (runSets (SprsMat.zeros 2 2) [])) :=
  ⟨True.intro, C4_invariant_after_successful_sets 2 2 [] True.intro⟩

/-- C5: `set` does not always run to completion with a normal or typed-error
return: on the invariant-satisfying 2×2 matrix with `row_ptr = [0,1,2]`,
`col_indx = [1,1]`, `vals = [4,5]`, the in-bounds call `set(1, 0, 7)` finds
no stored column `<= 0` in row 1 and reaches the unimplemented `todo!()`
branch, i.e. it panics. -/
theorem C5_set_reaches_panic_branch :
    CsrInv (SprsMat.new [0, 1, 2] [1, 1] [4, 5] (2, 2)) ∧
    ((SprsMat.new [0, 1, 2] [1, 1] [4, 5] (2, 2)).setitem 1 0 7).2 =
      some (RsError.panic "not yet implemented") := by
  decide

/-- C6: the claim "get and set fail with an IndexError iff an index is
negative or out of range, and no other error condition exists" is violated
by `set`: on `zeros 3 4` the call `set(2, 2, 1)` is in bounds (so no
IndexError may be raised), yet it fails — with a panic, which is not an
IndexError.  The validation itself does match the claim; the extra failure
mode is the unimplemented insertion branch. -/
theorem C6_set_error_other_than_indexError :
    CsrInv (SprsMat.zeros 3 4) ∧
    ((2 : Int).toNat < (SprsMat.zeros 3 4).shape.1 ∧
      (2 : Int).toNat < (SprsMat.zeros 3 4).shape.2) ∧
    ((SprsMat.zeros 3 4).setitem 2 2 1).2 =
      some (RsError.panic "not yet implemented") := by
  decide

/-- C7: a `set` or `get` call that fails the sign or bounds validation
leaves the matrix completely unchanged and reports an `IndexError`: all
validation happens before any array is touched (`get` moreover never
mutates, which the model reflects by it returning only a value). -/
theorem C7_failed_validation_leaves_matrix_unchanged (A : SprsMat)
    (i j v : Int)
    (h : i < 0 ∨ j < 0 ∨ (A.shape.1 : Int) ≤ i ∨ (A.shape.2 : Int) ≤ j) :
    (A.setitem i j v).1 = A ∧
    (∃ s, (A.setitem i j v).2 = some (RsError.indexError s)) ∧
    (∃ s, A.getitem i j = .error (RsError.indexError s)) := by
  by_cases h1 : i < 0
  · simp [SprsMat.setitem, SprsMat.getitem, h1]
  · by_cases h2 : j < 0
    · simp [SprsMat.setitem, SprsMat.getitem, h1, h2]
    · have h3 : A.shape.1 ≤ i.toNat ∨ A.shape.2 ≤ j.toNat := by
        rcases h with h | h | h | h
        · omega
        · omega
        · left; omega
        · right; omega
      simp [SprsMat.setitem, SprsMat.getitem, h1, h2, h3]

/-- C7 witness: the negative index `(-1, 0)` on `zeros 3 3`. -/
theorem C7_failed_validation_witness :
    ((-1 : Int) < 0 ∨ (0 : Int) < 0 ∨
      ((SprsMat.zeros 3 3).shape.1 : Int) ≤ -1 ∨
      ((SprsMat.zeros 3 3).shape.2 : Int) ≤ 0) ∧
    (((SprsMat.zeros 3 3).setitem (-1) 0 1).1 = SprsMat.zeros 3 3 ∧
      (∃ s, ((SprsMat.zeros 3 3).setitem (-1) 0 1).2 =
        some (RsError.indexError s)) ∧
      (∃ s, (SprsMat.zeros 3 3).getitem (-1) 0 =
        .error (RsError.indexError s))) :=
  ⟨Or.inl (by decide),
    C7_failed_validation_leaves_matrix_unchanged (SprsMat.zeros 3 3)
      (-1) 0 1 (Or.inl (by decide))⟩

/-- C8: on any matrix satisfying the CSR invariant and any in-bounds
`(row, col)`, `get` returns (without panic or error) exactly the lookup the
specification describes: the value of `vals` co-indexed with `col` in the
row's slice `col_indx[row_ptr[row] .. row_ptr[row+1]]` when `col` occurs
there, and `0` otherwise.  `get` takes the receiver immutably and is
modelled as a pure function, so it does not modify the matrix. -/
theorem C8_get_follows_spec (A : SprsMat) (i j : Int) (hInv : CsrInv A)
    (hi : 0 ≤ i) (hj : 0 ≤ j) (hm : i.toNat < A.shape.1)
    (hn : j.toNat < A.shape.2) :
    A.getitem i j = .ok (getSpec A i.toNat j.toNat) := by
  obtain ⟨hlen, h0, hmono, hlast, hvals, hrows⟩ := hInv
  have hm1 : i.toNat < A.row_ptr.length := by omega
  have hm2 : i.toNat + 1 < A.row_ptr.length := by omega
  have hlohi : A.row_ptr.getD i.toNat 0 ≤ A.row_ptr.getD (i.toNat + 1) 0 :=
    pairwise_le_getD _ hmono _ _ (by omega) hm2
  have hhile : A.row_ptr.getD (i.toNat + 1) 0 ≤ A.col_indx.length := by
    have := pairwise_le_getD _ hmono (i.toNat + 1) A.shape.1 (by omega)
      (by omega)
    omega
  have hA : rustIndex A.row_ptr i.toNat = .ok (A.row_ptr.getD i.toNat 0) :=
    rustIndex_eq_ok _ _ 0 hm1
  have hB : rustIndex A.row_ptr (i.toNat + 1)
      = .ok (A.row_ptr.getD (i.toNat + 1) 0) :=
    rustIndex_eq_ok _ _ 0 hm2
  have hC : rustSlice A.col_indx (A.row_ptr.getD i.toNat 0)
      (A.row_ptr.getD (i.toNat + 1) 0) = .ok (rowSlice A i.toNat) :=
    rustSlice_eq_ok _ _ _ hlohi hhile
  have h1 : ¬ i < 0 := by omega
  have h2 : ¬ j < 0 := by omega
  have h3 : ¬ (A.shape.1 ≤ i.toNat ∨ A.shape.2 ≤ j.toNat) := by omega
  unfold SprsMat.getitem
  rw [if_neg h1, if_neg h2, if_neg h3]
  rw [hA, hB]
  simp only [hC]
  cases hpos : position (fun x => x == j.toNat) (rowSlice A i.toNat) with
  | none => simp [getSpec, hpos]
  | some k =>
    have hk := position_lt_length _ _ _ hpos
    have hlenslice : (rowSlice A i.toNat).length
        = A.row_ptr.getD (i.toNat + 1) 0 - A.row_ptr.getD i.toNat 0 := by
      unfold rowSlice
      rw [List.length_take, List.length_drop]
      omega
    have hbound : A.row_ptr.getD i.toNat 0 + k < A.vals.length := by omega
    simp only [rustIndex_eq_ok A.vals (A.row_ptr.getD i.toNat 0 + k) 0 hbound,
      getSpec, hpos]

/-- C8 witness: the 1×2 matrix with a single stored entry `42` at `(0, 0)`. -/
theorem C8_get_follows_spec_witness :
    CsrInv (SprsMat.new [0, 1] [0] [42] (1, 2)) ∧
    (SprsMat.new [0, 1] [0] [42] (1, 2)).getitem 0 0 =
      .ok (getSpec (SprsMat.new [0, 1] [0] [42] (1, 2))
        (0 : Int).toNat (0 : Int).toNat) :=
  ⟨by decide,
    C8_get_follows_spec (SprsMat.new [0, 1] [0] [42] (1, 2)) 0 0 (by decide)
      (by decide) (by decide) (by decide) (by decide)⟩

/-- C9: for ALL `m` and `n` (including `m = 0` or `n = 0`), `zeros m n`
produces `row_ptr` equal to `m+1` zeros, empty `col_indx` and `vals`, and
shape `(m, n)`; and every in-bounds `get` on it returns `0`.  Only the
`get` conjunct quantifies over in-bounds indices; the structural conjuncts
hold unconditionally. -/
theorem C9_zeros_all_zero (m n : Nat) :
    (SprsMat.zeros m n).row_ptr = List.replicate (m + 1) 0 ∧
    (SprsMat.zeros m n).col_indx = [] ∧
    (SprsMat.zeros m n).vals = [] ∧
    (SprsMat.zeros m n).shape = (m, n) ∧
    ∀ i j : Int, 0 ≤ i → 0 ≤ j → i.toNat < m → j.toNat < n →
      (SprsMat.zeros m n).getitem i j = .ok 0 := by
  refine ⟨rfl, rfl, rfl, rfl, ?_⟩
  intro i j hi hj hm hn
  have h1 : ¬ i < 0 := by omega
  have h2 : ¬ j < 0 := by omega
  have h3 : ¬ ((SprsMat.zeros m n).shape.1 ≤ i.toNat ∨
      (SprsMat.zeros m n).shape.2 ≤ j.toNat) := by
    simp only [SprsMat.zeros]
    omega
  unfold SprsMat.getitem
  rw [if_neg h1, if_neg h2, if_neg h3]
  rw [zeros_row_ptr_index m n i.toNat (by omega),
    zeros_row_ptr_index m n (i.toNat + 1) (by omega)]
  have hsl : rustSlice (SprsMat.zeros m n).col_indx 0 0 = .ok [] := by
    simp [rustSlice, SprsMat.zeros]
  simp only [hsl, position]

/-- C9 witness: `zeros 3 3`, with the `get` conjunct read at `(1, 2)`. -/
theorem C9_zeros_all_zero_witness :
    (SprsMat.zeros 3 3).row_ptr = List.replicate (3 + 1) 0 ∧
    (SprsMat.zeros 3 3).getitem 1 2 = .ok 0 :=
  ⟨(C9_zeros_all_zero 3 3).1,
    (C9_zeros_all_zero 3 3).2.2.2.2 1 2 (by decide) (by decide) (by decide)
      (by decide)⟩

/-- C10: the raw constructor is total (it cannot fail) and stores all four
supplied components verbatim, with no validation or normalisation: the
`vals()` accessor returns exactly the supplied value sequence, and the
stored shape, row pointers and column indices equal the inputs. -/
theorem C10_new_stores_inputs_verbatim (rp ci : List Nat) (v : List Int)
    (s : Nat × Nat) :
    (SprsMat.new rp ci v s).valsFn = v ∧
    (SprsMat.new rp ci v s).shape = s ∧
    (SprsMat.new rp ci v s).row_ptr = rp ∧
    (SprsMat.new rp ci v s).col_indx = ci :=
  ⟨rfl, rfl, rfl, rfl⟩
